import Mathlib

/-!
Shallow embedding of `tap_freshdesk/__init__.py` (the incremental sync engine of
the tap-freshdesk repository): pagination (`gen_request`), record shaping
(`transform_dict`), the entity syncs (`sync_tickets`, `sync_time_filtered`),
state handling (`get_start`, the persisted `STATE` dictionary) and the
orchestrator (`do_sync`).

Python dictionaries are modelled as association lists over a small JSON value
type (Python 3.7+ dictionaries preserve insertion order, and all dictionaries
manipulated by the tap have unique keys).  The HTTP boundary is abstracted as a
function from a page number to either a JSON array of records or an HTTP status
code error, mirroring `request`'s contract (`resp.raise_for_status()` raises
`HTTPError` carrying the status).  Machine-level concerns (rate limiting,
backoff sleeps) do not affect the values computed and are not modelled.

Two slips in the source are modelled faithfully rather than repaired:
* line 91 reads `sincer.write_state(STATE)` — the name `sincer` is undefined,
  so every `gen_request` generator raises `NameError` when its pagination
  completes, instead of persisting the cleared cursor;
* line 188 reads `for name, sync in STREAMS.items()` — `STREAMS` is a `list`,
  which has no `items` method, so `do_sync` raises `AttributeError` before
  touching any stream.
-/

namespace TapFreshdesk

/-- JSON-ish values: the value space of the Python dictionaries the tap
manipulates (strings, integers, arrays, objects). -/
inductive JVal : Type where
  | str (s : String)
  | num (n : Int)
  | arr (xs : List JVal)
  | obj (fields : List (String × JVal))

/-- A Python dictionary, modelled as an insertion-ordered association list
with unique keys. -/
abbrev Dict : Type := List (String × JVal)

/-- `d[k]` lookup: first binding of `k` (keys are unique in practice). -/
def dictGet (d : Dict) (k : String) : Option JVal :=
  match d with
  | [] => none
  | (k', v) :: rest => if k' = k then some v else dictGet rest k

/-- `d[k] = v`: replace the value at `k` in place (keeping the key's
position) or append a new binding, exactly as a Python dictionary does. -/
def dictSet (d : Dict) (k : String) (v : JVal) : Dict :=
  match d with
  | [] => [(k, v)]
  | (k', v') :: rest => if k' = k then (k', v) :: rest else (k', v') :: dictSet rest k v

/-- `d.pop(k, None)`: remove the binding of `k` (a no-op when absent). -/
def dictPop (d : Dict) (k : String) : Dict :=
  match d with
  | [] => []
  | (k', v') :: rest => if k' = k then dictPop rest k else (k', v') :: dictPop rest k

theorem dictGet_dictSet_self (d : Dict) (k : String) (v : JVal) :
    dictGet (dictSet d k v) k = some v := by
  induction d with
  | nil => simp [dictGet, dictSet]
  | cons hd tl ih =>
    by_cases h : hd.1 = k <;> simp [dictGet, dictSet, h, ih]

theorem dictGet_dictSet_ne (d : Dict) (k k' : String) (v : JVal) (h : k' ≠ k) :
    dictGet (dictSet d k v) k' = dictGet d k' := by
  induction d with
  | nil => simp [dictGet, dictSet, Ne.symm h]
  | cons hd tl ih =>
    by_cases hk : hd.1 = k
    · have h1 : hd.1 ≠ k' := fun hh => h (hh.symm.trans hk)
      simp [dictGet, dictSet, hk, h1, Ne.symm h]
    · by_cases hk' : hd.1 = k' <;> simp [dictGet, dictSet, hk, hk', h, ih]

theorem dictGet_dictPop_ne (d : Dict) (k k' : String) (h : k' ≠ k) :
    dictGet (dictPop d k) k' = dictGet d k' := by
  induction d with
  | nil => rfl
  | cons hd tl ih =>
    by_cases hk : hd.1 = k
    · have h1 : hd.1 ≠ k' := fun hh => h (hh.symm.trans hk)
      simp [dictGet, dictPop, hk, h1, Ne.symm h, ih]
    · by_cases hk' : hd.1 = k' <;> simp [dictGet, dictPop, hk, hk', h, ih]

theorem dictGet_dictPop_self (d : Dict) (k : String) :
    dictGet (dictPop d k) k = none := by
  induction d with
  | nil => rfl
  | cons hd tl ih =>
    by_cases hk : hd.1 = k <;> simp [dictGet, dictPop, hk, ih]

/-- Runtime errors the tap can raise.  `http s` is an `HTTPError` with status
`s` (raised by `resp.raise_for_status()`); `nameError`, `attrError`,
`keyError` and `typeError` are the corresponding Python exceptions. -/
inductive HErr : Type where
  | http (status : Nat)
  | nameError (n : String)
  | attrError (a : String)
  | keyError (k : String)
  | typeError (t : String)
deriving DecidableEq

/-- How a modelled piece of control flow ends: normally, by exhausting the
model's fuel (standing for an external interruption of the process), or by a
raised exception. -/
inductive Outcome : Type where
  | finished
  | interrupted
  | failed (e : HErr)
deriving DecidableEq

/-- Observable outputs written to the singer sink, in order: schema
announcements, state checkpoints (`singer.write_state` snapshots the state at
call time) and record emissions. -/
inductive Event : Type where
  | writeSchema (stream : String)
  | writeState (st : Dict)
  | writeRecord (stream : String) (r : Dict)

/-- Is this event a record emission on stream `s`? -/
def Event.isRecordOf (s : String) : Event → Bool
  | .writeRecord s' _ => s' = s
  | _ => false

/-- Is this event a record emission at all? -/
def Event.isRecord : Event → Bool
  | .writeRecord _ _ => true
  | _ => false

/-- `PER_PAGE` (line 17). -/
def PER_PAGE : Nat := 100

/-- `STATE.get('page', 1)` (line 76): the persisted pagination cursor, a
single shared key of the global `STATE` dictionary.  The tap only ever stores
integers under `'page'`; other shapes fall back to the default. -/
def getPage (st : Dict) : Int :=
  match dictGet st "page" with
  | some (.num n) => n
  | _ => 1

/-- Result of running one `gen_request` generator to exhaustion (or up to the
fuel bound): the records yielded in order, the page numbers requested in
order, the state snapshots persisted by `singer.write_state`, the final
in-memory state, and how the generator ended. -/
structure GenOut : Type where
  yielded : List Dict
  requested : List Int
  writes : List Dict
  state : Dict
  outcome : Outcome

/-- The loop of `gen_request` (lines 77-91), starting at page `page` with
state `st`.  `fetch p` is the JSON body of `request(url, params)` for
`params['page'] = p`, or the HTTP status of a raised `HTTPError`.  A full page
(exactly `PER_PAGE` records) increments the local cursor, stores it in
`STATE['page']` and persists the state; a short page breaks out of the loop,
pops `STATE['page']` — and then line 91 evaluates the undefined name `sincer`,
so the generator raises `NameError` instead of persisting the cleared state.
The fuel bounds the number of pages; exhausting it models an external
interruption of the process. -/
def gen_requestAux (fetch : Int → Except Nat (List Dict)) :
    Nat → Int → Dict → GenOut
  | 0, _, st => ⟨[], [], [], st, .interrupted⟩
  | fuel + 1, page, st =>
    match fetch page with
    | .error s => ⟨[], [page], [], st, .failed (.http s)⟩
    | .ok data =>
      if data.length = PER_PAGE then
        let st' := dictSet st "page" (.num (page + 1))
        let r := gen_requestAux fetch fuel (page + 1) st'
        ⟨data ++ r.yielded, page :: r.requested, st' :: r.writes, r.state, r.outcome⟩
      else
        ⟨data, [page], [], dictPop st "page", .failed (.nameError "sincer")⟩

/-- `gen_request(url, params)` (lines 73-91) consumed by a plain `for` loop
with no side effects: the initial page is read from the shared persisted
cursor `STATE.get('page', 1)`. -/
def gen_request (fetch : Int → Except Nat (List Dict)) (st : Dict) (fuel : Nat) : GenOut :=
  gen_requestAux fetch fuel (getPage st) st

/-- `transform_dict` (lines 94-95): flatten a field mapping into a list of
`{key_key: k, value_key: v}` objects, one per entry, in iteration order. -/
def transform_dict (d : List (String × JVal)) (key_key value_key : String) : List JVal :=
  d.map (fun kv => JVal.obj [(key_key, .str kv.1), (value_key, kv.2)])

/-- `get_start(entity)` (lines 66-70): read the stream's watermark from
`STATE`, seeding it with `CONFIG['start_date']` when absent.  Returns the
watermark together with the (possibly seeded) state. -/
def get_start (entity : String) (start_date : String) (st : Dict) : JVal × Dict :=
  match dictGet st entity with
  | some v => (v, st)
  | none => (.str start_date, dictSet st entity (.str start_date))

/-- Lexicographic `≤` on lists of code points: Python's string comparison. -/
def lexLe : List Nat → List Nat → Bool
  | [], _ => true
  | _ :: _, [] => false
  | x :: xs, y :: ys => if x = y then lexLe xs ys else decide (x < y)

/-- The code points of a string, in order. -/
def strCodes (s : String) : List Nat := s.data.map Char.toNat

/-- Python `a <= b` on strings: lexicographic comparison of code points. -/
def strLe (a b : String) : Bool := lexLe (strCodes a) (strCodes b)

theorem lexLe_refl : ∀ l : List Nat, lexLe l l = true
  | [] => rfl
  | x :: xs => by simp [lexLe, lexLe_refl xs]

theorem lexLe_trans : ∀ a b c : List Nat,
    lexLe a b = true → lexLe b c = true → lexLe a c = true
  | [], _, _, _, _ => rfl
  | _ :: _, [], _, h₁, _ => by simp [lexLe] at h₁
  | _ :: _, _ :: _, [], _, h₂ => by simp [lexLe] at h₂
  | x :: xs, y :: ys, z :: zs, h₁, h₂ => by
    simp only [lexLe] at h₁ h₂ ⊢
    by_cases hxy : x = y
    · subst hxy
      by_cases hyz : x = z
      · subst hyz
        simp only [if_pos rfl] at h₁ h₂ ⊢
        exact lexLe_trans xs ys zs h₁ h₂
      · simpa [hyz] using h₂
    · by_cases hyz : y = z
      · subst hyz
        simpa [hxy] using h₁
      · simp only [if_neg hxy, decide_eq_true_eq] at h₁
        simp only [if_neg hyz, decide_eq_true_eq] at h₂
        have hxz : x < z := Nat.lt_trans h₁ h₂
        simp [Nat.ne_of_lt hxz, hxz]

theorem lexLe_total : ∀ a b : List Nat, lexLe a b = true ∨ lexLe b a = true
  | [], _ => Or.inl rfl
  | _ :: _, [] => Or.inr rfl
  | x :: xs, y :: ys => by
    by_cases hxy : x = y
    · subst hxy
      rcases lexLe_total xs ys with h | h
      · exact Or.inl (by simpa [lexLe] using h)
      · exact Or.inr (by simpa [lexLe] using h)
    · rcases Nat.lt_or_ge x y with h | h
      · exact Or.inl (by simp [lexLe, hxy, h])
      · have hne : y ≠ x := fun e => hxy e.symm
        have hyx : y < x := Nat.lt_of_le_of_ne h hne
        exact Or.inr (by simp [lexLe, hne, hyx])

theorem strLe_refl (s : String) : strLe s s = true := lexLe_refl _

theorem strLe_trans {a b c : String} (h₁ : strLe a b = true) (h₂ : strLe b c = true) :
    strLe a c = true := lexLe_trans _ _ _ h₁ h₂

theorem strLe_total (a b : String) : strLe a b = true ∨ strLe b a = true :=
  lexLe_total _ _

/-- Python `max(x, y)` on strings: `x` when `x >= y`, else `y`. -/
def pyMax (x y : String) : String := if strLe y x then x else y

theorem strLe_pyMax_left (x y : String) : strLe x (pyMax x y) = true := by
  unfold pyMax
  by_cases h : strLe y x = true
  · simp [h, strLe_refl]
  · rcases strLe_total x y with h' | h'
    · simp [h, h']
    · exact absurd h' h

theorem strLe_pyMax_right (x y : String) : strLe y (pyMax x y) = true := by
  unfold pyMax
  by_cases h : strLe y x = true
  · simp [h]
  · simp [h, strLe_refl]

/-- Modelled from the spec: `utils.update_state` lives in
`tap_freshdesk/utils.py`, which is not under `src/`.  Per the spec (§4.3):
"advance and persist W to `max(W, record.updated_at)`" — the watermark is set
to the maximum of its current value and `dt`, seeding it when absent.
Watermarks are timestamp strings compared lexicographically; comparing
non-strings raises `TypeError` as in Python. -/
def update_state (st : Dict) (entity : String) (dt : JVal) : Except HErr Dict :=
  match dictGet st entity, dt with
  | some (.str cur), .str d => .ok (dictSet st entity (.str (pyMax cur d)))
  | none, d => .ok (dictSet st entity d)
  | some _, _ => .error (.typeError "unorderable types in max")

/-- Python `a >= b` on the tap's timestamp values: lexicographic comparison
of strings; comparing anything else raises `TypeError`. -/
def jvalGe (a b : JVal) : Except HErr Bool :=
  match a, b with
  | .str x, .str y => .ok (strLe y x)
  | _, _ => .error (.typeError "unorderable types in comparison")

/-- Python `max(a, b)` on the tap's timestamp values (line 149). -/
def jvalMax (a b : JVal) : Except HErr JVal :=
  match a, b with
  | .str x, .str y => .ok (.str (pyMax x y))
  | _, _ => .error (.typeError "unorderable types in max")

/-- The body of a `for subrow in gen_request(...)` loop in `sync_tickets`:
one yielded record becomes emitted events, or raises.  Loop bodies mutate no
persisted state. -/
abbrev RowAct : Type := Dict → Except HErr (List Event)

/-- Conversations loop body (lines 120-123): strip `attachments` and `body`,
emit when `updated_at >= start`. -/
def convAct (start : JVal) (row : Dict) : Except HErr (List Event) :=
  let row₁ := dictPop (dictPop row "attachments") "body"
  match dictGet row₁ "updated_at" with
  | none => .error (.keyError "updated_at")
  | some u =>
    match jvalGe u start with
    | .error e => .error e
    | .ok true => .ok [.writeRecord "conversations" row₁]
    | .ok false => .ok []

/-- Satisfaction-ratings loop body (lines 127-130): flatten the nested
`ratings` mapping with key name `question`, emit when `updated_at >= start`.
A record without a `ratings` mapping raises (`KeyError`, or `AttributeError`
when the value is not a dictionary), as in the source. -/
def srAct (start : JVal) (row : Dict) : Except HErr (List Event) :=
  match dictGet row "ratings" with
  | none => .error (.keyError "ratings")
  | some (.obj d) =>
    let row₁ := dictSet row "ratings" (.arr (transform_dict d "question" "value"))
    match dictGet row₁ "updated_at" with
    | none => .error (.keyError "updated_at")
    | some u =>
      match jvalGe u start with
      | .error e => .error e
      | .ok true => .ok [.writeRecord "satisfaction_ratings" row₁]
      | .ok false => .ok []
  | some _ => .error (.attrError "items")

/-- Time-entries loop body (lines 139-141): emit unchanged when
`updated_at >= start`. -/
def teAct (start : JVal) (row : Dict) : Except HErr (List Event) :=
  match dictGet row "updated_at" with
  | none => .error (.keyError "updated_at")
  | some u =>
    match jvalGe u start with
    | .error e => .error e
    | .ok true => .ok [.writeRecord "time_entries" row]
    | .ok false => .ok []

/-- Run a loop body over the records of one page, in order, stopping at the
first raised exception (events emitted before it remain written). -/
def processRows (act : RowAct) : List Dict → List Event × Option HErr
  | [] => ([], none)
  | r :: rs =>
    match act r with
    | .error e => ([], some e)
    | .ok evs =>
      let rest := processRows act rs
      (evs ++ rest.1, rest.2)

/-- A `for ... in gen_request(url)` loop in `sync_tickets` (same generator as
`gen_requestAux`, lines 77-91), with loop body `act` run on each yielded
record.  After a full page the generator stores the incremented cursor in the
shared `STATE['page']` and persists the state; after a short page it pops
`STATE['page']` and then raises `NameError` at line 91 (`sincer` is
undefined), so the loop can never complete normally: its outcome is never
`finished`. -/
def subListingAux (fetch : Int → Except Nat (List Dict)) (act : RowAct) :
    Nat → Int → Dict → List Event × Dict × Outcome
  | 0, _, st => ([], st, .interrupted)
  | fuel + 1, page, st =>
    match fetch page with
    | .error s => ([], st, .failed (.http s))
    | .ok data =>
      match processRows act data with
      | (evs, some e) => (evs, st, .failed e)
      | (evs, none) =>
        if data.length = PER_PAGE then
          let st' := dictSet st "page" (.num (page + 1))
          let r := subListingAux fetch act fuel (page + 1) st'
          (evs ++ .writeState st' :: r.1, r.2)
        else
          (evs, dictPop st "page", .failed (.nameError "sincer"))

/-- A full `for ... in gen_request(url)` loop: the initial page is read from
the shared persisted cursor `STATE.get('page', 1)` (line 76). -/
def subListing (fetch : Int → Except Nat (List Dict)) (act : RowAct)
    (st : Dict) (fuel : Nat) : List Event × Dict × Outcome :=
  subListingAux fetch act fuel (getPage st) st

/-- The HTTP boundary of `sync_tickets`: `tickets start page` is the JSON
body of the tickets listing (`updated_since = start`, `page = page`) or the
status of a raised `HTTPError`; `sub tid entity page` likewise for
`/tickets/{tid}/{entity}`. -/
structure TicketsEnv : Type where
  tickets : JVal → Int → Except Nat (List Dict)
  sub : JVal → String → Int → Except Nat (List Dict)

/-- `except HTTPError as e: if e.response.status_code == 403: ... else:
raise` (lines 131-135 and 143-147): a 403 is swallowed and execution
continues after the loop; every other outcome propagates. -/
def catch403 : Outcome → Outcome
  | .failed (.http 403) => .finished
  | o => o

/-- Result of one step of a ticket-stream loop: events emitted, state,
`last_updated` accumulator, and how the step ended. -/
structure StepOut : Type where
  events : List Event
  state : Dict
  last : JVal
  outcome : Outcome

/-- The body of the ticket loop (lines 113-150) for one ticket `row`:
read `row['id']` (line 113), strip `attachments`, flatten
`row['custom_fields']` (`KeyError` when absent — line 115), sync the
`conversations` sub-resource (no exception handler), then
`satisfaction_ratings` and `time_entries` (each wrapped in the 403-tolerant
handler), update `last_updated` (line 149) and finally emit the ticket
record (line 150). -/
def processTicket (env : TicketsEnv) (start : JVal) (subFuel : Nat)
    (st : Dict) (last : JVal) (row : Dict) : StepOut :=
  match dictGet row "id" with
  | none => ⟨[], st, last, .failed (.keyError "id")⟩
  | some tid =>
    let row₁ := dictPop row "attachments"
    match dictGet row₁ "custom_fields" with
    | none => ⟨[], st, last, .failed (.keyError "custom_fields")⟩
    | some (.obj cf) =>
      let row₂ := dictSet row₁ "custom_fields" (.arr (transform_dict cf "name" "value"))
      let conv := subListing (env.sub tid "conversations") (convAct start) st subFuel
      match conv.2.2 with
      | .finished =>
        let sr := subListing (env.sub tid "satisfaction_ratings") (srAct start) conv.2.1 subFuel
        match catch403 sr.2.2 with
        | .finished =>
          let te := subListing (env.sub tid "time_entries") (teAct start) sr.2.1 subFuel
          match catch403 te.2.2 with
          | .finished =>
            match dictGet row₂ "updated_at" with
            | none => ⟨conv.1 ++ sr.1 ++ te.1, te.2.1, last, .failed (.keyError "updated_at")⟩
            | some u =>
              match jvalMax u last with
              | .error e => ⟨conv.1 ++ sr.1 ++ te.1, te.2.1, last, .failed e⟩
              | .ok last' =>
                ⟨conv.1 ++ sr.1 ++ te.1 ++ [.writeRecord "tickets" row₂], te.2.1, last', .finished⟩
          | o => ⟨conv.1 ++ sr.1 ++ te.1, te.2.1, last, o⟩
        | o => ⟨conv.1 ++ sr.1, sr.2.1, last, o⟩
      | o => ⟨conv.1, conv.2.1, last, o⟩
    | some _ => ⟨[], st, last, .failed (.attrError "items")⟩

/-- Consume the tickets of one page, in order, stopping at the first
exception or interruption. -/
def syncTicketsRows (env : TicketsEnv) (start : JVal) (subFuel : Nat) :
    List Dict → Dict → JVal → StepOut
  | [], st, last => ⟨[], st, last, .finished⟩
  | r :: rs, st, last =>
    let p := processTicket env start subFuel st last r
    match p.outcome with
    | .finished =>
      let q := syncTicketsRows env start subFuel rs p.state p.last
      ⟨p.events ++ q.events, q.state, q.last, q.outcome⟩
    | o => ⟨p.events, p.state, p.last, o⟩

/-- The outer `for i, row in enumerate(gen_request(get_url("tickets"),
params))` loop (line 112): the same generator as `gen_requestAux`, with
`processTicket` as loop body. -/
def syncTicketsPages (env : TicketsEnv) (start : JVal) (subFuel : Nat) :
    Nat → Int → Dict → JVal → StepOut
  | 0, _, st, last => ⟨[], st, last, .interrupted⟩
  | fuel + 1, page, st, last =>
    match env.tickets start page with
    | .error s => ⟨[], st, last, .failed (.http s)⟩
    | .ok data =>
      let p := syncTicketsRows env start subFuel data st last
      match p.outcome with
      | .finished =>
        if data.length = PER_PAGE then
          let st' := dictSet p.state "page" (.num (page + 1))
          let q := syncTicketsPages env start subFuel fuel (page + 1) st' p.last
          ⟨p.events ++ .writeState st' :: q.events, q.state, q.last, q.outcome⟩
        else
          ⟨p.events, dictPop p.state "page", p.last, .failed (.nameError "sincer")⟩
      | o => ⟨p.events, p.state, p.last, o⟩

/-- `sync_tickets()` (lines 98-153): announce the four schemas, read the
tickets watermark, run the paginated ticket loop, and — if it ever finished,
which the `sincer` slip prevents — persist the advanced watermark
(lines 152-153). -/
def sync_tickets (env : TicketsEnv) (start_date : String) (pageFuel subFuel : Nat)
    (st0 : Dict) : List Event × Dict × Outcome :=
  let schemas : List Event :=
    [.writeSchema "tickets", .writeSchema "conversations",
     .writeSchema "satisfaction_ratings", .writeSchema "time_entries"]
  let s := get_start "tickets" start_date st0
  let p := syncTicketsPages env s.1 subFuel pageFuel (getPage s.2) s.2 s.1
  match p.outcome with
  | .finished =>
    match update_state p.state "tickets" p.last with
    | .error e => (schemas ++ p.events, p.state, .failed e)
    | .ok st2 => (schemas ++ p.events ++ [.writeState st2], st2, .finished)
  | o => (schemas ++ p.events, p.state, o)

/-- `if 'custom_fields' in row: row['custom_fields'] =
transform_dict(row['custom_fields'])` (lines 163-164). -/
def transformCF (row : Dict) : Except HErr Dict :=
  match dictGet row "custom_fields" with
  | none => .ok row
  | some (.obj d) => .ok (dictSet row "custom_fields" (.arr (transform_dict d "name" "value")))
  | some _ => .error (.attrError "items")

/-- The body of the `sync_time_filtered` loop (lines 161-168) for one
record: filter on `updated_at >= start`, flatten `custom_fields` when
present, advance the watermark, persist the state, then emit the record. -/
def stfRow (entity : String) (start : JVal) (st : Dict) (row : Dict) :
    List Event × Dict × Outcome :=
  match dictGet row "updated_at" with
  | none => ([], st, .failed (.keyError "updated_at"))
  | some u =>
    match jvalGe u start with
    | .error e => ([], st, .failed e)
    | .ok false => ([], st, .finished)
    | .ok true =>
      match transformCF row with
      | .error e => ([], st, .failed e)
      | .ok row' =>
        match update_state st entity u with
        | .error e => ([], st, .failed e)
        | .ok st' => ([.writeState st', .writeRecord entity row'], st', .finished)

/-- Consume the records of one page of a time-filtered stream, in order. -/
def stfRows (entity : String) (start : JVal) :
    List Dict → Dict → List Event × Dict × Outcome
  | [], st => ([], st, .finished)
  | r :: rs, st =>
    let p := stfRow entity start st r
    match p.2.2 with
    | .finished =>
      let q := stfRows entity start rs p.2.1
      (p.1 ++ q.1, q.2)
    | o => (p.1, p.2.1, o)

/-- The `for row in gen_request(get_url(entity))` loop of
`sync_time_filtered` (line 161): the `gen_request` generator with `stfRow`
as loop body. -/
def stfPages (entity : String) (fetch : Int → Except Nat (List Dict)) (start : JVal) :
    Nat → Int → Dict → List Event × Dict × Outcome
  | 0, _, st => ([], st, .interrupted)
  | fuel + 1, page, st =>
    match fetch page with
    | .error s => ([], st, .failed (.http s))
    | .ok data =>
      let p := stfRows entity start data st
      match p.2.2 with
      | .finished =>
        if data.length = PER_PAGE then
          let st' := dictSet p.2.1 "page" (.num (page + 1))
          let q := stfPages entity fetch start fuel (page + 1) st'
          (p.1 ++ .writeState st' :: q.1, q.2)
        else
          (p.1, dictPop p.2.1 "page", .failed (.nameError "sincer"))
      | o => (p.1, p.2.1, o)

/-- `sync_time_filtered(entity)` (lines 156-170): announce the schema, read
the stream watermark, run the paginated loop, and — if it ever finished,
which the `sincer` slip prevents — persist the final state (line 170). -/
def sync_time_filtered (entity : String) (fetch : Int → Except Nat (List Dict))
    (start_date : String) (pageFuel : Nat) (st0 : Dict) : List Event × Dict × Outcome :=
  let s := get_start entity start_date st0
  let p := stfPages entity fetch s.1 pageFuel (getPage s.2) s.2
  match p.2.2 with
  | .finished => (.writeSchema entity :: p.1 ++ [.writeState p.2.1], p.2.1, .finished)
  | o => (.writeSchema entity :: p.1, p.2.1, o)

/-- `STREAMS` (lines 174-182): the configured stream list, in order (the
`contacts` stream is commented out in the source). -/
def STREAMS : List String := ["tickets", "agents", "roles", "groups", "companies"]

/-- `do_sync()` (lines 185-200).  Line 188 iterates `STREAMS.items()`, but
`STREAMS` is a `list`, which has no `items` method: the call raises
`AttributeError` before any stream is examined, so no event is emitted and
the state is left untouched. -/
def do_sync (st : Dict) : List Event × Dict × Outcome :=
  ([], st, .failed (.attrError "items"))

/-- The loop of `do_sync` (lines 188-198) as it would execute if line 188
iterated the stream list itself (`for name, sync in STREAMS:`), which is the
evident intent of the source: skip every stream other than the persisted
`active_stream` marker until that stream is reached, then for each remaining
stream mark it active and persist, run its sync to completion, clear the
marker and persist.  `runStream` stands for the `Stream.sync` callables. -/
def doSyncLoop (runStream : String → Dict → List Event × Dict × Outcome) :
    List String → Dict → List Event × Dict × Outcome
  | [], st => ([], st, .finished)
  | name :: rest, st =>
    let skip : Bool :=
      match dictGet st "active_stream" with
      | some (.str a) => a != name
      | some _ => true
      | none => false
    if skip then doSyncLoop runStream rest st
    else
      let st1 := dictSet st "active_stream" (.str name)
      let p := runStream name st1
      match p.2.2 with
      | .finished =>
        let st2 := dictPop p.2.1 "active_stream"
        let q := doSyncLoop runStream rest st2
        (.writeState st1 :: p.1 ++ .writeState st2 :: q.1, q.2)
      | o => (.writeState st1 :: p.1, p.2.1, o)

/-! ## Concrete fixtures used by the claim theorems -/

/-- A record carrying only an id. -/
def mkRec (i : Nat) : Dict := [("id", .num i)]

/-- A listing of 101 records: page 1 returns a full page of 100 records,
page 2 returns the one remaining record (a short page). -/
def listing101 (p : Int) : Except Nat (List Dict) :=
  if p = 1 then .ok ((List.range 100).map mkRec)
  else if p = 2 then .ok [mkRec 100]
  else .ok []

/-- Persisted state of a run interrupted while the outer tickets listing was
mid-progress: the tickets watermark plus the shared pagination cursor
`page = 2` persisted by the outer listing after it consumed page 1. -/
def outerMidListingState : Dict := [("tickets", .str "2020-01-01"), ("page", .num 2)]

/-- A sub-resource listing that is a single short (empty) page wherever it is
opened. -/
def emptySubFetch (_ : Int) : Except Nat (List Dict) := .ok []

/-- A listing that returns one record (a short page) for every page number. -/
def oneRowFetch (_ : Int) : Except Nat (List Dict) := .ok [mkRec 0]

/-- Persisted state left by a crash right after `gen_request` persisted
`page = 2` (which the source does after consuming page 1). -/
def crashResumeState : Dict := [("page", .num 2)]

/-- A listing whose every page is full: pagination never reaches a short
page within any finite fuel. -/
def fullPageFetch (_ : Int) : Except Nat (List Dict) :=
  .ok ((List.range 100).map mkRec)

/-- A groups record updated after the stored watermark. -/
def groupsRow : Dict := [("id", .num 7), ("updated_at", .str "2020-06-01")]

/-- A groups listing with a single short page holding `groupsRow`. -/
def groupsFetch (p : Int) : Except Nat (List Dict) :=
  if p = 1 then .ok [groupsRow] else .ok []

/-- A tickets environment with a single ticket whose `conversations` listing
succeeds (one short, empty page) and whose `satisfaction_ratings` and
`time_entries` endpoints answer HTTP 403. -/
def ticket403Env : TicketsEnv :=
  { tickets := fun _ p =>
      if p = 1 then
        .ok [[("id", .num 1), ("custom_fields", .obj []), ("updated_at", .str "2020-01-01")]]
      else .ok []
  , sub := fun _ ent _ => if ent = "conversations" then .ok [] else .error 403 }

/-! ## Claim theorems -/

/-- C9: `transform_dict` maps any field mapping to the list of
`{key_key, value_key}` pair objects, one per entry, preserving the mapping's
iteration order (same length, i-th output built from the i-th entry); in
particular `{"a": 1, "b": "x"}` becomes
`[{"name": "a", "value": 1}, {"name": "b", "value": "x"}]`, and with the
alternate key name `"question"` it produces `{question, value}` pairs. -/
theorem C9_transform_dict_ordered_pairs :
    (∀ (d : List (String × JVal)) (kk vk : String),
      (transform_dict d kk vk).length = d.length ∧
      ∀ i : Nat, (transform_dict d kk vk)[i]? =
        (d[i]?).map (fun kv => JVal.obj [(kk, .str kv.1), (vk, kv.2)])) ∧
    transform_dict [("a", .num 1), ("b", .str "x")] "name" "value" =
      [.obj [("name", .str "a"), ("value", .num 1)],
       .obj [("name", .str "b"), ("value", .str "x")]] ∧
    transform_dict [("q1", .str "Happy")] "question" "value" =
      [.obj [("question", .str "q1"), ("value", .str "Happy")]] := by
  refine ⟨fun d kk vk => ⟨?_, fun i => ?_⟩, rfl, rfl⟩
  · simp [transform_dict]
  · simp [transform_dict]

/-- C1 (code_bug evaluation): for every starting persisted state, `do_sync`
raises `AttributeError` at line 188 (`STREAMS` is a `list` and has no
`items` method) before examining any stream: no stream is processed, no
event is emitted, and the state is left untouched — the configured
stream-list iteration with its active-stream resume logic is never
reached. -/
theorem C1_do_sync_raises_attribute_error (st : Dict) :
    do_sync st = ([], st, .failed (.attrError "items")) := rfl

/-- C2 (code_bug evaluation): over a listing of 101 records (a full page of
100 then a short page of 1), `gen_request` yields all 101 records in order
with no duplicates and no gaps, requests pages 1 and 2, persists the
incremented cursor (`page = 2`) after the full first page, and removes the
cursor from the in-memory state after the short second page — but the
cleared state is never persisted: line 91 misspells `singer` as `sincer`, so
the generator raises `NameError` right after popping the cursor, and no
state write follows the one made after page 1. -/
theorem C2_gen_request_yields_all_but_crashes_on_completion :
    gen_request listing101 [] 3 =
      ⟨(List.range 101).map mkRec, [1, 2], [[("page", .num 2)]], [],
       .failed (.nameError "sincer")⟩ := rfl

/-- C5 (code_bug evaluation): one ticket whose `satisfaction_ratings`
endpoint answers HTTP 403 while `conversations` succeeds with a short empty
page.  The claim expects the 403'd sub-resource to be skipped and the ticket
record still emitted; instead the run aborts with `NameError` the moment the
conversations listing completes (line 91, `sincer`), before the
`except HTTPError` handlers at lines 131-147 are ever reached: the outcome
is `NameError`, not a handled 403, and no record event of any stream — in
particular no `tickets` record — is emitted. -/
theorem C5_sub_resource_403_never_reached :
    sync_tickets ticket403Env "2019-01-01" 3 3 [] =
      ([.writeSchema "tickets", .writeSchema "conversations",
        .writeSchema "satisfaction_ratings", .writeSchema "time_entries"],
       [("tickets", .str "2019-01-01")], .failed (.nameError "sincer")) ∧
    (sync_tickets ticket403Env "2019-01-01" 3 3 []).1.filter Event.isRecord = [] :=
  ⟨rfl, rfl⟩

/-- C3 counterexample: a nested sub-resource `gen_request` call opened while
the outer tickets listing is mid-progress (shared persisted cursor
`page = 2`) does not begin at page 1: it reads the shared cursor and
requests page 2 first, and when it completes it pops the shared `page` key,
clearing the outer listing's persisted cursor. -/
theorem C3_nested_listing_inherits_outer_cursor_cex :
    (gen_request emptySubFetch outerMidListingState 1).requested = [2] ∧
    (gen_request emptySubFetch outerMidListingState 1).requested.head? ≠ some 1 ∧
    dictGet (gen_request emptySubFetch outerMidListingState 1).state "page" = none :=
  ⟨rfl, by decide, rfl⟩

/-- C4 counterexample: after a crash that left `page = 2` persisted (the
value the source stores after consuming page 1), a restarted `gen_request`
requests page 2 next — not page 3 as the claim's concrete scenario
states. -/
theorem C4_restart_requests_page_two_cex :
    (gen_request oneRowFetch crashResumeState 2).requested.head? = some 2 ∧
    (gen_request oneRowFetch crashResumeState 2).requested.head? ≠ some 3 :=
  ⟨rfl, by decide⟩

theorem gen_requestAux_requested_head (fetch : Int → Except Nat (List Dict))
    (fuel : Nat) (page : Int) (st : Dict) (h : 0 < fuel) :
    (gen_requestAux fetch fuel page st).requested.head? = some page := by
  cases fuel with
  | zero => exact absurd h (by simp)
  | succ n =>
    cases hf : fetch page with
    | error s => simp [gen_requestAux, hf]
    | ok data =>
      by_cases hl : data.length = PER_PAGE <;> simp [gen_requestAux, hf, hl]

theorem gen_requestAux_requested_ge (fetch : Int → Except Nat (List Dict)) :
    ∀ (fuel : Nat) (page : Int) (st : Dict),
      ∀ q ∈ (gen_requestAux fetch fuel page st).requested, page ≤ q
  | 0, page, st => by simp [gen_requestAux]
  | fuel + 1, page, st => by
    intro q hq
    cases hf : fetch page with
    | error s =>
      simp [gen_requestAux, hf] at hq
      omega
    | ok data =>
      by_cases hl : data.length = PER_PAGE
      · simp only [gen_requestAux, hf, hl, if_pos] at hq
        rcases List.mem_cons.mp hq with rfl | hq'
        · exact le_refl q
        · have := gen_requestAux_requested_ge fetch fuel (page + 1)
            (dictSet st "page" (.num (page + 1))) q hq'
          omega
      · simp [gen_requestAux, hf, hl] at hq
        omega

theorem gen_requestAux_nameError_state (fetch : Int → Except Nat (List Dict)) :
    ∀ (fuel : Nat) (page : Int) (st : Dict),
      (gen_requestAux fetch fuel page st).outcome = .failed (.nameError "sincer") →
      dictGet (gen_requestAux fetch fuel page st).state "page" = none
  | 0, page, st => by simp [gen_requestAux]
  | fuel + 1, page, st => by
    cases hf : fetch page with
    | error s => simp [gen_requestAux, hf]
    | ok data =>
      by_cases hl : data.length = PER_PAGE
      · intro hc
        simp only [gen_requestAux, hf, hl, if_pos] at hc ⊢
        exact gen_requestAux_nameError_state fetch fuel (page + 1)
          (dictSet st "page" (.num (page + 1))) hc
      · intro _
        simp [gen_requestAux, hf, hl, dictGet_dictPop_self]

theorem gen_requestAux_interrupted_after_full_pages
    (fetch : Int → Except Nat (List Dict)) :
    ∀ (fuel : Nat) (page : Int) (st : Dict), 0 < fuel →
      (∀ p : Int, page ≤ p → p < page + fuel →
        ∃ data, fetch p = .ok data ∧ data.length = PER_PAGE) →
      dictGet (gen_requestAux fetch fuel page st).state "page" =
        some (.num (page + fuel)) ∧
      (gen_requestAux fetch fuel page st).outcome = .interrupted
  | 0, page, st => fun h _ => absurd h (by simp)
  | fuel + 1, page, st => by
    intro _ hfull
    obtain ⟨data, hf, hl⟩ := hfull page le_rfl (by omega)
    simp only [gen_requestAux, hf, hl, if_pos]
    cases fuel with
    | zero =>
      refine ⟨?_, rfl⟩
      simp [gen_requestAux, dictGet_dictSet_self]
    | succ m =>
      have ih := gen_requestAux_interrupted_after_full_pages fetch (m + 1) (page + 1)
        (dictSet st "page" (.num (page + 1))) (by omega)
        (fun p hp1 hp2 => hfull p (by omega) (by push_cast at hp2 ⊢; omega))
      refine ⟨?_, ih.2⟩
      rw [ih.1]
      have harith : page + 1 + ((m + 1 : Nat) : Int) = page + ((m + 1 + 1 : Nat) : Int) := by
        push_cast
        ring
      rw [harith]

/-- C3 amended: the pagination cursor is not private to a listing call:
each `gen_request` call keeps its own in-memory page counter but initialises
it from the single shared persisted `STATE['page']` key — so a nested
sub-resource listing opened while an outer listing has a persisted cursor P
begins at page P, not at page 1 — and when its pagination completes it pops
the shared key, clearing whatever cursor was persisted there (the clearing
itself is then never persisted, per the line 91 `sincer` slip). -/
theorem C3_cursor_is_shared_state (fetch : Int → Except Nat (List Dict))
    (st : Dict) (fuel : Nat) (h : 0 < fuel) :
    (gen_request fetch st fuel).requested.head? = some (getPage st) ∧
    ((gen_request fetch st fuel).outcome = .failed (.nameError "sincer") →
      dictGet (gen_request fetch st fuel).state "page" = none) :=
  ⟨gen_requestAux_requested_head fetch fuel (getPage st) st h,
   gen_requestAux_nameError_state fetch fuel (getPage st) st⟩

theorem C3_cursor_is_shared_state_witness :
    (gen_request emptySubFetch outerMidListingState 1).requested.head? =
      some (getPage outerMidListingState) ∧
    ((gen_request emptySubFetch outerMidListingState 1).outcome =
        .failed (.nameError "sincer") →
      dictGet (gen_request emptySubFetch outerMidListingState 1).state "page" = none) :=
  C3_cursor_is_shared_state emptySubFetch outerMidListingState 1 (by decide)

/-- C4 amended: `gen_request` resumes exactly at the persisted cursor.  A
restarted call first requests `STATE.get('page', 1)` and never requests any
earlier page; a run from page 1 interrupted right after consuming `k` full
pages has `page = k + 1` persisted, and a restart from that state requests
page `k + 1` first.  In the claim's concrete scenario, persisted `page = 2`
(stored after consuming page 1) makes the restart request page 2, not
page 3; requesting page 3 next corresponds to persisted `page = 3`, the
state left after consuming page 2. -/
theorem C4_restart_resumes_at_persisted_cursor :
    (∀ (fetch : Int → Except Nat (List Dict)) (st : Dict) (fuel : Nat), 0 < fuel →
      (gen_request fetch st fuel).requested.head? = some (getPage st) ∧
      ∀ q ∈ (gen_request fetch st fuel).requested, getPage st ≤ q) ∧
    (∀ (fetch : Int → Except Nat (List Dict)) (st : Dict) (k fuel' : Nat),
      0 < k → 0 < fuel' →
      (∀ p : Int, 1 ≤ p → p < 1 + k →
        ∃ data, fetch p = .ok data ∧ data.length = PER_PAGE) →
      dictGet (gen_requestAux fetch k 1 st).state "page" =
        some (.num (1 + (k : Int))) ∧
      (gen_requestAux fetch k 1 st).outcome = .interrupted ∧
      (gen_request fetch (gen_requestAux fetch k 1 st).state fuel').requested.head? =
        some (1 + (k : Int))) := by
  constructor
  · intro fetch st fuel h
    exact ⟨gen_requestAux_requested_head fetch fuel (getPage st) st h,
           gen_requestAux_requested_ge fetch fuel (getPage st) st⟩
  · intro fetch st k fuel' hk hf' hfull
    obtain ⟨hstate, houtc⟩ :=
      gen_requestAux_interrupted_after_full_pages fetch k 1 st hk
        (by
          intro p hp1 hp2
          exact hfull p hp1 (by omega))
    have hpage : getPage (gen_requestAux fetch k 1 st).state = 1 + (k : Int) := by
      unfold getPage
      rw [hstate]
    refine ⟨hstate, houtc, ?_⟩
    unfold gen_request
    rw [hpage]
    exact gen_requestAux_requested_head fetch fuel' (1 + (k : Int))
      (gen_requestAux fetch k 1 st).state hf'

theorem C4_restart_resumes_at_persisted_cursor_witness :
    ((gen_request oneRowFetch crashResumeState 2).requested.head? =
        some (getPage crashResumeState) ∧
      ∀ q ∈ (gen_request oneRowFetch crashResumeState 2).requested,
        getPage crashResumeState ≤ q) ∧
    (dictGet (gen_requestAux fullPageFetch 1 1 []).state "page" =
        some (.num (1 + ((1 : Nat) : Int))) ∧
      (gen_requestAux fullPageFetch 1 1 []).outcome = .interrupted ∧
      (gen_request fullPageFetch (gen_requestAux fullPageFetch 1 1 []).state 1).requested.head? =
        some (1 + ((1 : Nat) : Int))) :=
  ⟨C4_restart_resumes_at_persisted_cursor.1 oneRowFetch crashResumeState 2 (by decide),
   C4_restart_resumes_at_persisted_cursor.2 fullPageFetch [] 1 1 (by decide) (by decide)
     (fun _ _ _ => ⟨(List.range 100).map mkRec, rfl, by simp [PER_PAGE]⟩)⟩

/-- C6 counterexample: groups stream, stored watermark `2020-01-01`, one
record updated `2020-06-01`.  The run's events are, in order: the schema,
then a state write persisting the advanced watermark `2020-06-01`, then the
record's emission — the watermark is advanced and persisted BEFORE the
record is emitted, so the persisted watermark names a record that has not
been emitted yet, contradicting "persisted only after that record's
emission". -/
theorem C6_watermark_persisted_before_emission_cex :
    sync_time_filtered "groups" groupsFetch "2019-01-01" 2
        [("groups", .str "2020-01-01")] =
      ([.writeSchema "groups", .writeState [("groups", .str "2020-06-01")],
        .writeRecord "groups" groupsRow],
       [("groups", .str "2020-06-01")], .failed (.nameError "sincer")) := rfl

/-! ## C6: ordering of watermark persistence and record emission -/

/-- One-step lookahead scanner for the amended C6 ordering property: every
record emitted on stream `entity` must be immediately preceded by a state
write whose persisted `entity` watermark is at least the record's
`updated_at`.  The first argument carries the immediately preceding event
when that event is a state write. -/
def persistBeforeEmit (entity : String) : Option Dict → List Event → Bool
  | _, [] => true
  | prev, .writeRecord e r :: rest =>
    (if e = entity then
       match prev with
       | some w =>
         match dictGet r "updated_at", dictGet w entity with
         | some (.str u), some (.str s) => strLe u s
         | _, _ => false
       | none => false
     else true) && persistBeforeEmit entity none rest
  | _, .writeState w :: rest => persistBeforeEmit entity (some w) rest
  | _, .writeSchema _ :: rest => persistBeforeEmit entity none rest

/-- The lookahead carried by `persistBeforeEmit` after scanning a list. -/
def pbeCarry : Option Dict → List Event → Option Dict
  | prev, [] => prev
  | _, .writeState w :: rest => pbeCarry (some w) rest
  | _, _ :: rest => pbeCarry none rest

theorem persistBeforeEmit_append (entity : String) :
    ∀ (xs ys : List Event) (p : Option Dict),
      persistBeforeEmit entity p (xs ++ ys) =
        (persistBeforeEmit entity p xs && persistBeforeEmit entity (pbeCarry p xs) ys)
  | [], ys, p => by simp [persistBeforeEmit, pbeCarry]
  | ev :: rest, ys, p => by
    cases ev with
    | writeSchema s =>
      simp [persistBeforeEmit, pbeCarry, persistBeforeEmit_append entity rest ys none]
    | writeState w =>
      simp [persistBeforeEmit, pbeCarry, persistBeforeEmit_append entity rest ys (some w)]
    | writeRecord e r =>
      simp [persistBeforeEmit, pbeCarry, persistBeforeEmit_append entity rest ys none,
        Bool.and_assoc]

theorem jvalGe_ok_true (u start : JVal) (h : jvalGe u start = .ok true) :
    ∃ us ss, u = .str us ∧ start = .str ss ∧ strLe ss us = true := by
  cases u <;> cases start <;> simp [jvalGe] at h <;>
    exact ⟨_, _, rfl, rfl, h⟩

theorem transformCF_preserves_key (row row' : Dict) (k : String)
    (hk : k ≠ "custom_fields") (h : transformCF row = .ok row') :
    dictGet row' k = dictGet row k := by
  unfold transformCF at h
  cases hc : dictGet row "custom_fields" with
  | none =>
    rw [hc] at h
    cases h
    rfl
  | some v =>
    cases v <;> rw [hc] at h <;> cases h
    exact dictGet_dictSet_ne row "custom_fields" k (.arr _) hk

theorem update_state_str (st : Dict) (entity : String) (u : String) (st' : Dict)
    (h : update_state st entity (.str u) = .ok st') :
    ∃ s : String, dictGet st' entity = some (.str s) ∧ strLe u s = true := by
  unfold update_state at h
  cases hc : dictGet st entity with
  | none =>
    rw [hc] at h
    cases h
    exact ⟨u, dictGet_dictSet_self st entity (.str u), strLe_refl u⟩
  | some v =>
    cases v with
    | str cur =>
      rw [hc] at h
      cases h
      exact ⟨pyMax cur u, dictGet_dictSet_self st entity _, strLe_pyMax_right cur u⟩
    | num n =>
      rw [hc] at h
      cases h
    | arr xs =>
      rw [hc] at h
      cases h
    | obj fs =>
      rw [hc] at h
      cases h

theorem stfRow_persistBeforeEmit (entity : String) (start : JVal) (st row : Dict)
    (p : Option Dict) :
    persistBeforeEmit entity p (stfRow entity start st row).1 = true := by
  unfold stfRow
  cases hu : dictGet row "updated_at" with
  | none => rfl
  | some u =>
    dsimp only
    cases hg : jvalGe u start with
    | error e => rfl
    | ok b =>
      cases b with
      | false => rfl
      | true =>
        obtain ⟨us, ss, huu, hss, hle⟩ := jvalGe_ok_true u start hg
        subst huu
        dsimp only
        cases ht : transformCF row with
        | error e => rfl
        | ok row' =>
          dsimp only
          cases hus : update_state st entity (.str us) with
          | error e => rfl
          | ok st' =>
            obtain ⟨s, hst', hules⟩ := update_state_str st entity us st' hus
            have hrow' : dictGet row' "updated_at" = some (.str us) :=
              (transformCF_preserves_key row row' "updated_at" (by decide) ht).trans hu
            simp [persistBeforeEmit, hrow', hst', hules]

theorem stfRows_persistBeforeEmit (entity : String) (start : JVal) :
    ∀ (rows : List Dict) (st : Dict) (p : Option Dict),
      persistBeforeEmit entity p (stfRows entity start rows st).1 = true
  | [], _, _ => rfl
  | r :: rs, st, p => by
    cases ho : (stfRow entity start st r).2.2 with
    | finished =>
      simp [stfRows, ho, persistBeforeEmit_append, stfRow_persistBeforeEmit,
        stfRows_persistBeforeEmit entity start rs]
    | interrupted =>
      simpa only [stfRows, ho] using stfRow_persistBeforeEmit entity start st r p
    | failed e =>
      simpa only [stfRows, ho] using stfRow_persistBeforeEmit entity start st r p

theorem stfPages_persistBeforeEmit (entity : String)
    (fetch : Int → Except Nat (List Dict)) (start : JVal) :
    ∀ (fuel : Nat) (page : Int) (st : Dict) (p : Option Dict),
      persistBeforeEmit entity p (stfPages entity fetch start fuel page st).1 = true
  | 0, _, _, _ => rfl
  | fuel + 1, page, st, p => by
    cases hf : fetch page with
    | error s => simp [stfPages, hf, persistBeforeEmit]
    | ok data =>
      cases ho : (stfRows entity start data st).2.2 with
      | finished =>
        by_cases hl : data.length = PER_PAGE
        · simp [stfPages, hf, ho, hl, persistBeforeEmit_append, persistBeforeEmit,
            stfRows_persistBeforeEmit,
            stfPages_persistBeforeEmit entity fetch start fuel]
        · simp [stfPages, hf, ho, hl, stfRows_persistBeforeEmit]
      | interrupted => simp [stfPages, hf, ho, stfRows_persistBeforeEmit]
      | failed e => simp [stfPages, hf, ho, stfRows_persistBeforeEmit]

/-- C6 amended: in `sync_time_filtered`, for each record with
`updated_at >= watermark`, the advanced watermark
(`max(current, updated_at)`) is persisted immediately BEFORE — not after —
the record's emission: every record event on the stream is directly preceded
by a state write whose persisted watermark is at least that record's
`updated_at`, so each persisted watermark corresponds to the record emitted
right after it (and all earlier ones), not only to already-emitted
records. -/
theorem C6_watermark_persisted_immediately_before_emission
    (entity : String) (fetch : Int → Except Nat (List Dict))
    (start_date : String) (pageFuel : Nat) (st0 : Dict) :
    persistBeforeEmit entity none
      (sync_time_filtered entity fetch start_date pageFuel st0).1 = true := by
  unfold sync_time_filtered
  cases ho : (stfPages entity fetch (get_start entity start_date st0).1 pageFuel
      (getPage (get_start entity start_date st0).2) (get_start entity start_date st0).2).2.2 with
  | finished =>
    simp [ho, persistBeforeEmit, persistBeforeEmit_append, stfPages_persistBeforeEmit]
  | interrupted => simp [ho, persistBeforeEmit, stfPages_persistBeforeEmit]
  | failed e => simp [ho, persistBeforeEmit, stfPages_persistBeforeEmit]

/-! ## C7: watermark monotonicity and resume semantics -/

theorem get_start_reads (entity sd : String) (st : Dict) (v : JVal)
    (h : dictGet st entity = some v) : get_start entity sd st = (v, st) := by
  unfold get_start
  rw [h]

theorem get_start_defaults (entity sd : String) (st : Dict)
    (h : dictGet st entity = none) :
    get_start entity sd st = (.str sd, dictSet st entity (.str sd)) := by
  unfold get_start
  rw [h]

theorem get_start_state (entity sd : String) (st : Dict) (w : String)
    (h : (get_start entity sd st).1 = .str w) :
    dictGet (get_start entity sd st).2 entity = some (.str w) := by
  unfold get_start at h ⊢
  cases hc : dictGet st entity with
  | none =>
    rw [hc] at h
    dsimp only at h
    dsimp only
    rw [dictGet_dictSet_self, h]
  | some v =>
    rw [hc] at h
    dsimp only at h
    dsimp only
    rw [hc, h]

theorem stfRow_watermark_mono (entity : String) (start : JVal) (st row : Dict)
    (w : String) (hw : dictGet st entity = some (.str w)) :
    ∃ w', dictGet (stfRow entity start st row).2.1 entity = some (.str w') ∧
      strLe w w' = true := by
  unfold stfRow
  cases hu : dictGet row "updated_at" with
  | none => exact ⟨w, hw, strLe_refl w⟩
  | some u =>
    dsimp only
    cases hg : jvalGe u start with
    | error e => exact ⟨w, hw, strLe_refl w⟩
    | ok b =>
      cases b with
      | false => exact ⟨w, hw, strLe_refl w⟩
      | true =>
        obtain ⟨us, ss, huu, hss, hle⟩ := jvalGe_ok_true u start hg
        subst huu
        dsimp only
        cases ht : transformCF row with
        | error e => exact ⟨w, hw, strLe_refl w⟩
        | ok row' =>
          dsimp only
          cases hus : update_state st entity (.str us) with
          | error e => exact ⟨w, hw, strLe_refl w⟩
          | ok st' =>
            unfold update_state at hus
            rw [hw] at hus
            cases hus
            exact ⟨pyMax w us, dictGet_dictSet_self st entity _, strLe_pyMax_left w us⟩

theorem stfRows_watermark_mono (entity : String) (start : JVal) :
    ∀ (rows : List Dict) (st : Dict) (w : String),
      dictGet st entity = some (.str w) →
      ∃ w', dictGet (stfRows entity start rows st).2.1 entity = some (.str w') ∧
        strLe w w' = true
  | [], st, w, hw => ⟨w, hw, strLe_refl w⟩
  | r :: rs, st, w, hw => by
    obtain ⟨w1, hw1, hle1⟩ := stfRow_watermark_mono entity start st r w hw
    cases ho : (stfRow entity start st r).2.2 with
    | finished =>
      obtain ⟨w2, hw2, hle2⟩ :=
        stfRows_watermark_mono entity start rs (stfRow entity start st r).2.1 w1 hw1
      refine ⟨w2, ?_, strLe_trans hle1 hle2⟩
      simp only [stfRows, ho]
      exact hw2
    | interrupted =>
      refine ⟨w1, ?_, hle1⟩
      simp only [stfRows, ho]
      exact hw1
    | failed e =>
      refine ⟨w1, ?_, hle1⟩
      simp only [stfRows, ho]
      exact hw1

theorem stfPages_watermark_mono (entity : String)
    (fetch : Int → Except Nat (List Dict)) (start : JVal) (hne : entity ≠ "page") :
    ∀ (fuel : Nat) (page : Int) (st : Dict) (w : String),
      dictGet st entity = some (.str w) →
      ∃ w', dictGet (stfPages entity fetch start fuel page st).2.1 entity =
          some (.str w') ∧ strLe w w' = true
  | 0, _, st, w, hw => ⟨w, hw, strLe_refl w⟩
  | fuel + 1, page, st, w, hw => by
    cases hf : fetch page with
    | error s =>
      refine ⟨w, ?_, strLe_refl w⟩
      simp only [stfPages, hf]
      exact hw
    | ok data =>
      obtain ⟨w1, hw1, hle1⟩ := stfRows_watermark_mono entity start data st w hw
      cases ho : (stfRows entity start data st).2.2 with
      | finished =>
        by_cases hl : data.length = PER_PAGE
        · have hw1' : dictGet (dictSet (stfRows entity start data st).2.1 "page"
              (.num (page + 1))) entity = some (.str w1) := by
            rw [dictGet_dictSet_ne _ _ _ _ hne]
            exact hw1
          obtain ⟨w2, hw2, hle2⟩ :=
            stfPages_watermark_mono entity fetch start hne fuel (page + 1) _ w1 hw1'
          refine ⟨w2, ?_, strLe_trans hle1 hle2⟩
          simp only [stfPages, hf, ho, hl, if_pos]
          exact hw2
        · refine ⟨w1, ?_, hle1⟩
          simp only [stfPages, hf, ho]
          rw [if_neg hl]
          rw [dictGet_dictPop_ne _ _ _ hne]
          exact hw1
      | interrupted =>
        refine ⟨w1, ?_, hle1⟩
        simp only [stfPages, hf, ho]
        exact hw1
      | failed e =>
        refine ⟨w1, ?_, hle1⟩
        simp only [stfPages, hf, ho]
        exact hw1

theorem sync_time_filtered_watermark_mono (entity : String)
    (fetch : Int → Except Nat (List Dict)) (sd : String) (pageFuel : Nat)
    (st0 : Dict) (w : String) (hne : entity ≠ "page")
    (hstart : (get_start entity sd st0).1 = .str w) :
    ∃ w', dictGet (sync_time_filtered entity fetch sd pageFuel st0).2.1 entity =
        some (.str w') ∧ strLe w w' = true := by
  have hst1 := get_start_state entity sd st0 w hstart
  obtain ⟨w', hw', hle⟩ := stfPages_watermark_mono entity fetch
    (get_start entity sd st0).1 hne pageFuel (getPage (get_start entity sd st0).2)
    (get_start entity sd st0).2 w hst1
  refine ⟨w', ?_, hle⟩
  simp only [sync_time_filtered]
  split
  · exact hw'
  · exact hw'

theorem subListingAux_state_preserves (fetch : Int → Except Nat (List Dict))
    (act : RowAct) (k : String) (hk : k ≠ "page") :
    ∀ (fuel : Nat) (page : Int) (st : Dict),
      dictGet (subListingAux fetch act fuel page st).2.1 k = dictGet st k
  | 0, _, st => rfl
  | fuel + 1, page, st => by
    cases hf : fetch page with
    | error s => simp [subListingAux, hf]
    | ok data =>
      cases hr : processRows act data with
      | mk evs oe =>
        cases oe with
        | some e => simp [subListingAux, hf, hr]
        | none =>
          by_cases hl : data.length = PER_PAGE
          · simp only [subListingAux, hf, hr, hl, if_pos]
            rw [subListingAux_state_preserves fetch act k hk fuel,
              dictGet_dictSet_ne _ _ _ _ hk]
          · simp only [subListingAux, hf, hr]
            rw [if_neg hl]
            exact dictGet_dictPop_ne st "page" k hk

theorem subListing_state_preserves (fetch : Int → Except Nat (List Dict))
    (act : RowAct) (st : Dict) (fuel : Nat) (k : String) (hk : k ≠ "page") :
    dictGet (subListing fetch act st fuel).2.1 k = dictGet st k :=
  subListingAux_state_preserves fetch act k hk fuel (getPage st) st

theorem processTicket_state_preserves (env : TicketsEnv) (start : JVal)
    (subFuel : Nat) (st : Dict) (last : JVal) (row : Dict) (k : String)
    (hk : k ≠ "page") :
    dictGet (processTicket env start subFuel st last row).state k = dictGet st k := by
  simp only [processTicket]
  repeat' split
  all_goals dsimp only
  all_goals
    first
      | rfl
      | simp only [subListing_state_preserves, hk, ne_eq, not_false_eq_true]

theorem syncTicketsRows_state_preserves (env : TicketsEnv) (start : JVal)
    (subFuel : Nat) (k : String) (hk : k ≠ "page") :
    ∀ (rows : List Dict) (st : Dict) (last : JVal),
      dictGet (syncTicketsRows env start subFuel rows st last).state k = dictGet st k
  | [], _, _ => rfl
  | r :: rs, st, last => by
    cases ho : (processTicket env start subFuel st last r).outcome with
    | finished =>
      simp only [syncTicketsRows, ho]
      rw [syncTicketsRows_state_preserves env start subFuel k hk rs,
        processTicket_state_preserves env start subFuel st last r k hk]
    | interrupted =>
      simp only [syncTicketsRows, ho]
      exact processTicket_state_preserves env start subFuel st last r k hk
    | failed e =>
      simp only [syncTicketsRows, ho]
      exact processTicket_state_preserves env start subFuel st last r k hk

theorem syncTicketsPages_state_preserves (env : TicketsEnv) (start : JVal)
    (subFuel : Nat) (k : String) (hk : k ≠ "page") :
    ∀ (fuel : Nat) (page : Int) (st : Dict) (last : JVal),
      dictGet (syncTicketsPages env start subFuel fuel page st last).state k =
        dictGet st k
  | 0, _, st, _ => rfl
  | fuel + 1, page, st, last => by
    cases hf : env.tickets start page with
    | error s => simp [syncTicketsPages, hf]
    | ok data =>
      cases ho : (syncTicketsRows env start subFuel data st last).outcome with
      | finished =>
        by_cases hl : data.length = PER_PAGE
        · simp only [syncTicketsPages, hf, ho, hl, if_pos]
          rw [syncTicketsPages_state_preserves env start subFuel k hk fuel,
            dictGet_dictSet_ne _ _ _ _ hk,
            syncTicketsRows_state_preserves env start subFuel k hk data]
        · simp only [syncTicketsPages, hf, ho]
          rw [if_neg hl, dictGet_dictPop_ne _ _ _ hk,
            syncTicketsRows_state_preserves env start subFuel k hk data]
      | interrupted =>
        simp only [syncTicketsPages, hf, ho]
        exact syncTicketsRows_state_preserves env start subFuel k hk data st last
      | failed e =>
        simp only [syncTicketsPages, hf, ho]
        exact syncTicketsRows_state_preserves env start subFuel k hk data st last

theorem sync_tickets_watermark_mono (env : TicketsEnv) (sd : String)
    (pageFuel subFuel : Nat) (st0 : Dict) (w : String)
    (hstart : (get_start "tickets" sd st0).1 = .str w) :
    ∃ w', dictGet (sync_tickets env sd pageFuel subFuel st0).2.1 "tickets" =
        some (.str w') ∧ strLe w w' = true := by
  have hst1 := get_start_state "tickets" sd st0 w hstart
  have hpres := syncTicketsPages_state_preserves env (get_start "tickets" sd st0).1
    subFuel "tickets" (by decide) pageFuel (getPage (get_start "tickets" sd st0).2)
    (get_start "tickets" sd st0).2 (get_start "tickets" sd st0).1
  have hpw : dictGet (syncTicketsPages env (get_start "tickets" sd st0).1 subFuel
      pageFuel (getPage (get_start "tickets" sd st0).2) (get_start "tickets" sd st0).2
      (get_start "tickets" sd st0).1).state "tickets" = some (.str w) :=
    hpres.trans hst1
  simp only [sync_tickets]
  split
  · rename_i heq
    cases hus : update_state (syncTicketsPages env (get_start "tickets" sd st0).1 subFuel
        pageFuel (getPage (get_start "tickets" sd st0).2) (get_start "tickets" sd st0).2
        (get_start "tickets" sd st0).1).state "tickets"
        (syncTicketsPages env (get_start "tickets" sd st0).1 subFuel pageFuel
          (getPage (get_start "tickets" sd st0).2) (get_start "tickets" sd st0).2
          (get_start "tickets" sd st0).1).last with
    | error e =>
      exact ⟨w, hpw, strLe_refl w⟩
    | ok st2 =>
      unfold update_state at hus
      rw [hpw] at hus
      cases hlast : (syncTicketsPages env (get_start "tickets" sd st0).1 subFuel pageFuel
          (getPage (get_start "tickets" sd st0).2) (get_start "tickets" sd st0).2
          (get_start "tickets" sd st0).1).last with
      | str l =>
        rw [hlast] at hus
        cases hus
        exact ⟨pyMax w l, dictGet_dictSet_self _ _ _, strLe_pyMax_left w l⟩
      | num n =>
        rw [hlast] at hus
        cases hus
      | arr xs =>
        rw [hlast] at hus
        cases hus
      | obj fs =>
        rw [hlast] at hus
        cases hus
  · exact ⟨w, hpw, strLe_refl w⟩

/-- C7: for every stream, the per-stream watermark is monotonically
non-decreasing across a run — the value stored under the stream's key in the
final state is at least the watermark read at the start of the run — and the
watermark read at the start of a resumed run is exactly the value persisted
at the end of the previous run: `get_start` returns the stored value
unchanged whenever one exists, and seeds `start_date` only when no prior
value exists. -/
theorem C7_watermark_monotone_and_resume_reads_persisted :
    (∀ (st : Dict) (entity sd : String) (v : JVal),
      dictGet st entity = some v → get_start entity sd st = (v, st)) ∧
    (∀ (st : Dict) (entity sd : String),
      dictGet st entity = none →
      get_start entity sd st = (.str sd, dictSet st entity (.str sd))) ∧
    (∀ (entity : String) (fetch : Int → Except Nat (List Dict)) (sd : String)
      (pageFuel : Nat) (st0 : Dict) (w : String), entity ≠ "page" →
      (get_start entity sd st0).1 = .str w →
      ∃ w', dictGet (sync_time_filtered entity fetch sd pageFuel st0).2.1 entity =
          some (.str w') ∧ strLe w w' = true) ∧
    (∀ (env : TicketsEnv) (sd : String) (pageFuel subFuel : Nat) (st0 : Dict)
      (w : String),
      (get_start "tickets" sd st0).1 = .str w →
      ∃ w', dictGet (sync_tickets env sd pageFuel subFuel st0).2.1 "tickets" =
          some (.str w') ∧ strLe w w' = true) :=
  ⟨fun st entity sd v h => get_start_reads entity sd st v h,
   fun st entity sd h => get_start_defaults entity sd st h,
   fun entity fetch sd pageFuel st0 w hne hs =>
     sync_time_filtered_watermark_mono entity fetch sd pageFuel st0 w hne hs,
   fun env sd pageFuel subFuel st0 w hs =>
     sync_tickets_watermark_mono env sd pageFuel subFuel st0 w hs⟩

theorem C7_watermark_monotone_witness :
    get_start "groups" "2019-01-01" [("groups", .str "2020-01-01")] =
      (.str "2020-01-01", [("groups", .str "2020-01-01")]) ∧
    get_start "tickets" "2019-01-01" [] =
      (.str "2019-01-01", [("tickets", .str "2019-01-01")]) ∧
    (∃ w', dictGet (sync_time_filtered "groups" groupsFetch "2019-01-01" 2
        [("groups", .str "2020-01-01")]).2.1 "groups" = some (.str w') ∧
      strLe "2020-01-01" w' = true) ∧
    (∃ w', dictGet (sync_tickets ticket403Env "2019-01-01" 3 3 []).2.1 "tickets" =
        some (.str w') ∧ strLe "2019-01-01" w' = true) :=
  ⟨C7_watermark_monotone_and_resume_reads_persisted.1 _ "groups" "2019-01-01" _ rfl,
   C7_watermark_monotone_and_resume_reads_persisted.2.1 [] "tickets" "2019-01-01" rfl,
   C7_watermark_monotone_and_resume_reads_persisted.2.2.1 "groups" groupsFetch
     "2019-01-01" 2 [("groups", .str "2020-01-01")] "2020-01-01" (by decide) rfl,
   C7_watermark_monotone_and_resume_reads_persisted.2.2.2 ticket403Env
     "2019-01-01" 3 3 [] "2019-01-01" rfl⟩

/-! ## C8: emitted records respect the watermark filter -/

/-- A record that passed the client-side watermark filter: its `updated_at`
is a string at least the (string) watermark. -/
def FilteredGe (start : JVal) (r : Dict) : Prop :=
  ∃ u w, dictGet r "updated_at" = some (.str u) ∧ start = .str w ∧ strLe w u = true

/-- A loop body all of whose emitted records pass the watermark filter. -/
def GoodAct (start : JVal) (act : RowAct) : Prop :=
  ∀ row evs, act row = .ok evs →
    ∀ s r, Event.writeRecord s r ∈ evs → FilteredGe start r

theorem convAct_good (start : JVal) : GoodAct start (convAct start) := by
  intro row evs h s r hm
  simp only [convAct] at h
  cases hu : dictGet (dictPop (dictPop row "attachments") "body") "updated_at" with
  | none =>
    rw [hu] at h
    cases h
  | some u =>
    rw [hu] at h
    dsimp only at h
    cases hg : jvalGe u start with
    | error e =>
      rw [hg] at h
      cases h
    | ok b =>
      rw [hg] at h
      cases b with
      | false =>
        cases h
        cases hm
      | true =>
        cases h
        obtain ⟨us, ss, huu, hss, hle⟩ := jvalGe_ok_true u start hg
        rcases List.mem_singleton.mp hm with heq
        cases heq
        exact ⟨us, ss, huu ▸ hu, hss, hle⟩

theorem srAct_good (start : JVal) : GoodAct start (srAct start) := by
  intro row evs h s r hm
  simp only [srAct] at h
  cases hrat : dictGet row "ratings" with
  | none =>
    rw [hrat] at h
    cases h
  | some v =>
    rw [hrat] at h
    cases v with
    | str x => cases h
    | num n => cases h
    | arr xs => cases h
    | obj d =>
      dsimp only at h
      cases hu : dictGet (dictSet row "ratings" (.arr (transform_dict d "question" "value")))
          "updated_at" with
      | none =>
        rw [hu] at h
        cases h
      | some u =>
        rw [hu] at h
        dsimp only at h
        cases hg : jvalGe u start with
        | error e =>
          rw [hg] at h
          cases h
        | ok b =>
          rw [hg] at h
          cases b with
          | false =>
            cases h
            cases hm
          | true =>
            cases h
            obtain ⟨us, ss, huu, hss, hle⟩ := jvalGe_ok_true u start hg
            rcases List.mem_singleton.mp hm with heq
            cases heq
            exact ⟨us, ss, huu ▸ hu, hss, hle⟩

theorem teAct_good (start : JVal) : GoodAct start (teAct start) := by
  intro row evs h s r hm
  simp only [teAct] at h
  cases hu : dictGet row "updated_at" with
  | none =>
    rw [hu] at h
    cases h
  | some u =>
    rw [hu] at h
    dsimp only at h
    cases hg : jvalGe u start with
    | error e =>
      rw [hg] at h
      cases h
    | ok b =>
      rw [hg] at h
      cases b with
      | false =>
        cases h
        cases hm
      | true =>
        cases h
        obtain ⟨us, ss, huu, hss, hle⟩ := jvalGe_ok_true u start hg
        rcases List.mem_singleton.mp hm with heq
        cases heq
        exact ⟨us, ss, huu ▸ hu, hss, hle⟩

theorem processRows_filtered (act : RowAct) (start : JVal) (hact : GoodAct start act) :
    ∀ (rows : List Dict) (s : String) (r : Dict),
      Event.writeRecord s r ∈ (processRows act rows).1 → FilteredGe start r
  | [], _, _, hm => absurd hm (List.not_mem_nil _)
  | row :: rows, s, r, hm => by
    cases ha : act row with
    | error e => simp [processRows, ha] at hm
    | ok evs =>
      simp only [processRows, ha] at hm
      rcases List.mem_append.mp hm with h1 | h2
      · exact hact row evs ha s r h1
      · exact processRows_filtered act start hact rows s r h2

theorem subListingAux_filtered (fetch : Int → Except Nat (List Dict)) (act : RowAct)
    (start : JVal) (hact : GoodAct start act) :
    ∀ (fuel : Nat) (page : Int) (st : Dict) (s : String) (r : Dict),
      Event.writeRecord s r ∈ (subListingAux fetch act fuel page st).1 →
      FilteredGe start r
  | 0, _, _, _, _, hm => absurd hm (List.not_mem_nil _)
  | fuel + 1, page, st, s, r, hm => by
    cases hf : fetch page with
    | error e => simp [subListingAux, hf] at hm
    | ok data =>
      cases hr : processRows act data with
      | mk evs oe =>
        cases oe with
        | some e =>
          simp only [subListingAux, hf, hr] at hm
          exact processRows_filtered act start hact data s r (by rw [hr]; exact hm)
        | none =>
          by_cases hl : data.length = PER_PAGE
          · simp only [subListingAux, hf, hr, hl, if_pos] at hm
            rcases List.mem_append.mp hm with h1 | h2
            · exact processRows_filtered act start hact data s r (by rw [hr]; exact h1)
            · rcases List.mem_cons.mp h2 with heq | h3
              · simp at heq
              · exact subListingAux_filtered fetch act start hact fuel (page + 1) _ s r h3
          · simp only [subListingAux, hf, hr] at hm
            rw [if_neg hl] at hm
            exact processRows_filtered act start hact data s r (by rw [hr]; exact hm)

theorem subListing_filtered (fetch : Int → Except Nat (List Dict)) (act : RowAct)
    (start : JVal) (hact : GoodAct start act) (st : Dict) (fuel : Nat)
    (s : String) (r : Dict)
    (hm : Event.writeRecord s r ∈ (subListing fetch act st fuel).1) :
    FilteredGe start r :=
  subListingAux_filtered fetch act start hact fuel (getPage st) st s r hm

theorem processTicket_filtered (env : TicketsEnv) (start : JVal) (subFuel : Nat)
    (st : Dict) (last : JVal) (row : Dict) (s : String) (r : Dict)
    (hm : Event.writeRecord s r ∈ (processTicket env start subFuel st last row).events)
    (hs : s ≠ "tickets") : FilteredGe start r := by
  simp only [processTicket] at hm
  split at hm
  · exact absurd hm (List.not_mem_nil _)
  · split at hm
    · exact absurd hm (List.not_mem_nil _)
    · split at hm
      · split at hm
        · split at hm
          · split at hm
            · rcases List.mem_append.mp hm with h12 | h3
              · rcases List.mem_append.mp h12 with h1 | h2
                · exact subListing_filtered _ _ start (convAct_good start) _ _ s r h1
                · exact subListing_filtered _ _ start (srAct_good start) _ _ s r h2
              · exact subListing_filtered _ _ start (teAct_good start) _ _ s r h3
            · split at hm
              · rcases List.mem_append.mp hm with h12 | h3
                · rcases List.mem_append.mp h12 with h1 | h2
                  · exact subListing_filtered _ _ start (convAct_good start) _ _ s r h1
                  · exact subListing_filtered _ _ start (srAct_good start) _ _ s r h2
                · exact subListing_filtered _ _ start (teAct_good start) _ _ s r h3
              · rcases List.mem_append.mp hm with h123 | h4
                · rcases List.mem_append.mp h123 with h12 | h3
                  · rcases List.mem_append.mp h12 with h1 | h2
                    · exact subListing_filtered _ _ start (convAct_good start) _ _ s r h1
                    · exact subListing_filtered _ _ start (srAct_good start) _ _ s r h2
                  · exact subListing_filtered _ _ start (teAct_good start) _ _ s r h3
                · rcases List.mem_singleton.mp h4 with heq
                  cases heq
                  exact absurd rfl hs
          · rcases List.mem_append.mp hm with h12 | h3
            · rcases List.mem_append.mp h12 with h1 | h2
              · exact subListing_filtered _ _ start (convAct_good start) _ _ s r h1
              · exact subListing_filtered _ _ start (srAct_good start) _ _ s r h2
            · exact subListing_filtered _ _ start (teAct_good start) _ _ s r h3
        · rcases List.mem_append.mp hm with h1 | h2
          · exact subListing_filtered _ _ start (convAct_good start) _ _ s r h1
          · exact subListing_filtered _ _ start (srAct_good start) _ _ s r h2
      · exact subListing_filtered _ _ start (convAct_good start) _ _ s r hm
    · exact absurd hm (List.not_mem_nil _)

theorem syncTicketsRows_filtered (env : TicketsEnv) (start : JVal) (subFuel : Nat) :
    ∀ (rows : List Dict) (st : Dict) (last : JVal) (s : String) (r : Dict),
      Event.writeRecord s r ∈ (syncTicketsRows env start subFuel rows st last).events →
      s ≠ "tickets" → FilteredGe start r
  | [], _, _, _, _, hm, _ => absurd hm (List.not_mem_nil _)
  | row :: rows, st, last, s, r, hm, hs => by
    cases ho : (processTicket env start subFuel st last row).outcome with
    | finished =>
      simp only [syncTicketsRows, ho] at hm
      rcases List.mem_append.mp hm with h1 | h2
      · exact processTicket_filtered env start subFuel st last row s r h1 hs
      · exact syncTicketsRows_filtered env start subFuel rows _ _ s r h2 hs
    | interrupted =>
      simp only [syncTicketsRows, ho] at hm
      exact processTicket_filtered env start subFuel st last row s r hm hs
    | failed e =>
      simp only [syncTicketsRows, ho] at hm
      exact processTicket_filtered env start subFuel st last row s r hm hs

theorem syncTicketsPages_filtered (env : TicketsEnv) (start : JVal) (subFuel : Nat) :
    ∀ (fuel : Nat) (page : Int) (st : Dict) (last : JVal) (s : String) (r : Dict),
      Event.writeRecord s r ∈ (syncTicketsPages env start subFuel fuel page st last).events →
      s ≠ "tickets" → FilteredGe start r
  | 0, _, _, _, _, _, hm, _ => absurd hm (List.not_mem_nil _)
  | fuel + 1, page, st, last, s, r, hm, hs => by
    cases hf : env.tickets start page with
    | error e => simp [syncTicketsPages, hf] at hm
    | ok data =>
      cases ho : (syncTicketsRows env start subFuel data st last).outcome with
      | finished =>
        by_cases hl : data.length = PER_PAGE
        · simp only [syncTicketsPages, hf, ho, hl, if_pos] at hm
          rcases List.mem_append.mp hm with h1 | h2
          · exact syncTicketsRows_filtered env start subFuel data st last s r h1 hs
          · rcases List.mem_cons.mp h2 with heq | h3
            · simp at heq
            · exact syncTicketsPages_filtered env start subFuel fuel (page + 1) _ _ s r h3 hs
        · simp only [syncTicketsPages, hf, ho] at hm
          rw [if_neg hl] at hm
          exact syncTicketsRows_filtered env start subFuel data st last s r hm hs
      | interrupted =>
        simp only [syncTicketsPages, hf, ho] at hm
        exact syncTicketsRows_filtered env start subFuel data st last s r hm hs
      | failed e =>
        simp only [syncTicketsPages, hf, ho] at hm
        exact syncTicketsRows_filtered env start subFuel data st last s r hm hs

theorem sync_tickets_filtered (env : TicketsEnv) (sd : String)
    (pageFuel subFuel : Nat) (st0 : Dict) (s : String) (r : Dict)
    (hm : Event.writeRecord s r ∈ (sync_tickets env sd pageFuel subFuel st0).1)
    (hs : s ≠ "tickets") : FilteredGe (get_start "tickets" sd st0).1 r := by
  simp only [sync_tickets] at hm
  have hschema : Event.writeRecord s r ∉
      ([.writeSchema "tickets", .writeSchema "conversations",
        .writeSchema "satisfaction_ratings", .writeSchema "time_entries"] :
        List Event) := by
    intro hc
    rcases List.mem_cons.mp hc with h | hc <;> try simp at h
    rcases List.mem_cons.mp hc with h | hc <;> try simp at h
    rcases List.mem_cons.mp hc with h | hc <;> try simp at h
    rcases List.mem_cons.mp hc with h | hc <;> try simp at h
    exact List.not_mem_nil _ hc
  split at hm
  · split at hm
    · rcases List.mem_append.mp hm with h1 | h2
      · exact absurd h1 hschema
      · exact syncTicketsPages_filtered env _ subFuel pageFuel _ _ _ s r h2 hs
    · rcases List.mem_append.mp hm with h1 | h2
      · rcases List.mem_append.mp h1 with h3 | h4
        · exact absurd h3 hschema
        · exact syncTicketsPages_filtered env _ subFuel pageFuel _ _ _ s r h4 hs
      · simp at h2
  · rcases List.mem_append.mp hm with h1 | h2
    · exact absurd h1 hschema
    · exact syncTicketsPages_filtered env _ subFuel pageFuel _ _ _ s r h2 hs

theorem stfRow_filtered (entity : String) (start : JVal) (st row : Dict)
    (s : String) (r : Dict)
    (hm : Event.writeRecord s r ∈ (stfRow entity start st row).1) :
    FilteredGe start r := by
  unfold stfRow at hm
  cases hu : dictGet row "updated_at" with
  | none =>
    rw [hu] at hm
    cases hm
  | some u =>
    rw [hu] at hm
    dsimp only at hm
    cases hg : jvalGe u start with
    | error e =>
      rw [hg] at hm
      cases hm
    | ok b =>
      rw [hg] at hm
      cases b with
      | false => cases hm
      | true =>
        dsimp only at hm
        cases ht : transformCF row with
        | error e =>
          rw [ht] at hm
          cases hm
        | ok row' =>
          rw [ht] at hm
          dsimp only at hm
          cases hus : update_state st entity u with
          | error e =>
            rw [hus] at hm
            cases hm
          | ok st' =>
            rw [hus] at hm
            obtain ⟨us, ss, huu, hss, hle⟩ := jvalGe_ok_true u start hg
            rcases List.mem_cons.mp hm with heq | hm2
            · simp at heq
            · rcases List.mem_singleton.mp hm2 with heq
              cases heq
              refine ⟨us, ss, ?_, hss, hle⟩
              rw [transformCF_preserves_key row r "updated_at" (by decide) ht, hu, huu]

theorem stfRows_filtered (entity : String) (start : JVal) :
    ∀ (rows : List Dict) (st : Dict) (s : String) (r : Dict),
      Event.writeRecord s r ∈ (stfRows entity start rows st).1 → FilteredGe start r
  | [], _, _, _, hm => absurd hm (List.not_mem_nil _)
  | row :: rows, st, s, r, hm => by
    cases ho : (stfRow entity start st row).2.2 with
    | finished =>
      simp only [stfRows, ho] at hm
      rcases List.mem_append.mp hm with h1 | h2
      · exact stfRow_filtered entity start st row s r h1
      · exact stfRows_filtered entity start rows _ s r h2
    | interrupted =>
      simp only [stfRows, ho] at hm
      exact stfRow_filtered entity start st row s r hm
    | failed e =>
      simp only [stfRows, ho] at hm
      exact stfRow_filtered entity start st row s r hm

theorem stfPages_filtered (entity : String) (fetch : Int → Except Nat (List Dict))
    (start : JVal) :
    ∀ (fuel : Nat) (page : Int) (st : Dict) (s : String) (r : Dict),
      Event.writeRecord s r ∈ (stfPages entity fetch start fuel page st).1 →
      FilteredGe start r
  | 0, _, _, _, _, hm => absurd hm (List.not_mem_nil _)
  | fuel + 1, page, st, s, r, hm => by
    cases hf : fetch page with
    | error e => simp [stfPages, hf] at hm
    | ok data =>
      cases ho : (stfRows entity start data st).2.2 with
      | finished =>
        by_cases hl : data.length = PER_PAGE
        · simp only [stfPages, hf, ho, hl, if_pos] at hm
          rcases List.mem_append.mp hm with h1 | h2
          · exact stfRows_filtered entity start data st s r h1
          · rcases List.mem_cons.mp h2 with heq | h3
            · simp at heq
            · exact stfPages_filtered entity fetch start fuel (page + 1) _ s r h3
        · simp only [stfPages, hf, ho] at hm
          rw [if_neg hl] at hm
          exact stfRows_filtered entity start data st s r hm
      | interrupted =>
        simp only [stfPages, hf, ho] at hm
        exact stfRows_filtered entity start data st s r hm
      | failed e =>
        simp only [stfPages, hf, ho] at hm
        exact stfRows_filtered entity start data st s r hm

theorem sync_time_filtered_filtered (entity : String)
    (fetch : Int → Except Nat (List Dict)) (sd : String) (pageFuel : Nat)
    (st0 : Dict) (s : String) (r : Dict)
    (hm : Event.writeRecord s r ∈ (sync_time_filtered entity fetch sd pageFuel st0).1) :
    FilteredGe (get_start entity sd st0).1 r := by
  simp only [sync_time_filtered] at hm
  split at hm
  · rcases List.mem_cons.mp hm with heq | hm2
    · simp at heq
    · rcases List.mem_append.mp hm2 with h1 | h2
      · exact stfPages_filtered entity fetch _ pageFuel _ _ s r h1
      · simp at h2
  · rcases List.mem_cons.mp hm with heq | hm2
    · simp at heq
    · exact stfPages_filtered entity fetch _ pageFuel _ _ s r hm2

/-- C8: a sub-record (conversation, satisfaction rating or time entry) or a
time-filtered-stream record whose `updated_at` is strictly below the
watermark read at the start of the sync is never emitted: every emitted such
record has a string `updated_at` at least the (string) watermark returned by
`get_start`. -/
theorem C8_no_record_below_watermark_emitted :
    (∀ (env : TicketsEnv) (sd : String) (pageFuel subFuel : Nat) (st0 : Dict)
      (s : String) (r : Dict),
      Event.writeRecord s r ∈ (sync_tickets env sd pageFuel subFuel st0).1 →
      s = "conversations" ∨ s = "satisfaction_ratings" ∨ s = "time_entries" →
      ∃ u w, dictGet r "updated_at" = some (.str u) ∧
        (get_start "tickets" sd st0).1 = .str w ∧ strLe w u = true) ∧
    (∀ (entity : String) (fetch : Int → Except Nat (List Dict)) (sd : String)
      (pageFuel : Nat) (st0 : Dict) (s : String) (r : Dict),
      Event.writeRecord s r ∈ (sync_time_filtered entity fetch sd pageFuel st0).1 →
      ∃ u w, dictGet r "updated_at" = some (.str u) ∧
        (get_start entity sd st0).1 = .str w ∧ strLe w u = true) := by
  constructor
  · intro env sd pageFuel subFuel st0 s r hm hsub
    have hs : s ≠ "tickets" := by
      rcases hsub with rfl | rfl | rfl <;> decide
    exact sync_tickets_filtered env sd pageFuel subFuel st0 s r hm hs
  · intro entity fetch sd pageFuel st0 s r hm
    exact sync_time_filtered_filtered entity fetch sd pageFuel st0 s r hm

/-- A conversation record updated after the watermark. -/
def convRec1 : Dict := [("id", .num 11), ("updated_at", .str "2020-05-05")]

/-- A tickets environment with one ticket whose conversations listing holds
`convRec1` on a single short page; the other sub-resources answer 403. -/
def convRecEnv : TicketsEnv :=
  { tickets := fun _ p =>
      if p = 1 then
        .ok [[("id", .num 1), ("custom_fields", .obj []), ("updated_at", .str "2020-01-01")]]
      else .ok []
  , sub := fun _ ent _ => if ent = "conversations" then .ok [convRec1] else .error 403 }

theorem C8_no_record_below_watermark_emitted_witness :
    (∃ u w, dictGet convRec1 "updated_at" = some (.str u) ∧
      (get_start "tickets" "2019-01-01" []).1 = .str w ∧ strLe w u = true) ∧
    (∃ u w, dictGet groupsRow "updated_at" = some (.str u) ∧
      (get_start "groups" "2019-01-01" [("groups", .str "2020-01-01")]).1 = .str w ∧
      strLe w u = true) :=
  ⟨C8_no_record_below_watermark_emitted.1 convRecEnv "2019-01-01" 3 3 []
      "conversations" convRec1
      (by
        have h : (sync_tickets convRecEnv "2019-01-01" 3 3 []).1 =
            [.writeSchema "tickets", .writeSchema "conversations",
             .writeSchema "satisfaction_ratings", .writeSchema "time_entries",
             .writeRecord "conversations" convRec1] := rfl
        rw [h]
        exact List.Mem.tail _ (List.Mem.tail _ (List.Mem.tail _ (List.Mem.tail _
          (List.Mem.head _)))))
      (Or.inl rfl),
   C8_no_record_below_watermark_emitted.2 "groups" groupsFetch "2019-01-01" 2
      [("groups", .str "2020-01-01")] "groups" groupsRow
      (by
        have h : (sync_time_filtered "groups" groupsFetch "2019-01-01" 2
            [("groups", .str "2020-01-01")]).1 =
            [.writeSchema "groups", .writeState [("groups", .str "2020-06-01")],
             .writeRecord "groups" groupsRow] := rfl
        rw [h]
        exact List.Mem.tail _ (List.Mem.tail _ (List.Mem.head _)))⟩

/-! ## C10: guarded vs unguarded access to custom_fields -/

/-- A ticket record with no `custom_fields` key. -/
def noCFRow : Dict := [("id", .num 5), ("updated_at", .str "2020-01-01")]

/-- A tickets environment whose single ticket lacks `custom_fields`. -/
def noCFEnv : TicketsEnv :=
  { tickets := fun _ p => if p = 1 then .ok [noCFRow] else .ok []
  , sub := fun _ _ _ => .ok [] }

/-- C10: `sync_tickets` reads `row['custom_fields']` on every ticket without
a membership test (line 115), so a ticket lacking the key makes the run fail
with `KeyError` and no ticket record is emitted for it; `sync_time_filtered`
guards the access with `'custom_fields' in row` (line 163) and emits a
record lacking the key unchanged. -/
theorem C10_custom_fields_unguarded_vs_guarded :
    (∀ (env : TicketsEnv) (sd : String) (pf sf : Nat) (st0 : Dict)
      (row : Dict) (rest : List Dict) (tid start : JVal) (st1 : Dict),
      0 < pf →
      get_start "tickets" sd st0 = (start, st1) →
      env.tickets start (getPage st1) = .ok (row :: rest) →
      dictGet row "id" = some tid →
      dictGet row "custom_fields" = none →
      (sync_tickets env sd pf sf st0).2.2 = .failed (.keyError "custom_fields") ∧
      ∀ r', Event.writeRecord "tickets" r' ∉ (sync_tickets env sd pf sf st0).1) ∧
    (∀ (entity : String) (fetch : Int → Except Nat (List Dict)) (sd : String)
      (pf : Nat) (st0 : Dict) (row : Dict) (rest : List Dict) (w u : String)
      (st1 : Dict),
      0 < pf →
      get_start entity sd st0 = (.str w, st1) →
      fetch (getPage st1) = .ok (row :: rest) →
      dictGet row "updated_at" = some (.str u) →
      strLe w u = true →
      dictGet row "custom_fields" = none →
      Event.writeRecord entity row ∈
        (sync_time_filtered entity fetch sd pf st0).1) := by
  constructor
  · intro env sd pf sf st0 row rest tid start st1 hpf hgs hfetch hid hcf
    have hcf' : dictGet (dictPop row "attachments") "custom_fields" = none := by
      rw [dictGet_dictPop_ne row "attachments" "custom_fields" (by decide)]
      exact hcf
    have hpt : processTicket env start sf st1 start row =
        ⟨[], st1, start, .failed (.keyError "custom_fields")⟩ := by
      simp only [processTicket, hid, hcf']
    cases pf with
    | zero => exact absurd hpf (by simp)
    | succ m =>
      have hrows : syncTicketsRows env start sf (row :: rest) st1 start =
          ⟨[], st1, start, .failed (.keyError "custom_fields")⟩ := by
        simp only [syncTicketsRows, hpt]
      have hpages : syncTicketsPages env start sf (m + 1) (getPage st1) st1 start =
          ⟨[], st1, start, .failed (.keyError "custom_fields")⟩ := by
        simp only [syncTicketsPages, hfetch, hrows]
      have hfull : sync_tickets env sd (m + 1) sf st0 =
          ([.writeSchema "tickets", .writeSchema "conversations",
            .writeSchema "satisfaction_ratings", .writeSchema "time_entries"],
           st1, .failed (.keyError "custom_fields")) := by
        simp [sync_tickets, hgs, hpages]
      constructor
      · rw [hfull]
      · intro r' hmem
        rw [hfull] at hmem
        simp at hmem
  · intro entity fetch sd pf st0 row rest w u st1 hpf hgs hfetch hu hwu hcf
    have hst1 : dictGet st1 entity = some (.str w) := by
      have h := get_start_state entity sd st0 w (by rw [hgs])
      rw [hgs] at h
      exact h
    have hus : update_state st1 entity (.str u) =
        .ok (dictSet st1 entity (.str (pyMax w u))) := by
      unfold update_state
      rw [hst1]
    have hrow : stfRow entity (.str w) st1 row =
        ([.writeState (dictSet st1 entity (.str (pyMax w u))),
          .writeRecord entity row],
         dictSet st1 entity (.str (pyMax w u)), .finished) := by
      simp only [stfRow, hu, jvalGe, hwu, transformCF, hcf, hus]
    have hmemrows : Event.writeRecord entity row ∈
        (stfRows entity (.str w) (row :: rest) st1).1 := by
      simp only [stfRows, hrow]
      exact List.mem_append_left _ (List.Mem.tail _ (List.Mem.head _))
    cases pf with
    | zero => exact absurd hpf (by simp)
    | succ m =>
      have hmempages : Event.writeRecord entity row ∈
          (stfPages entity fetch (.str w) (m + 1) (getPage st1) st1).1 := by
        simp only [stfPages, hfetch]
        cases ho : (stfRows entity (.str w) (row :: rest) st1).2.2 with
        | finished =>
          by_cases hl : (row :: rest).length = PER_PAGE
          · simp only [ho, hl, if_pos]
            exact List.mem_append_left _ hmemrows
          · simp only [ho]
            rw [if_neg hl]
            exact hmemrows
        | interrupted =>
          simp only [ho]
          exact hmemrows
        | failed e =>
          simp only [ho]
          exact hmemrows
      simp only [sync_time_filtered, hgs]
      split
      · exact List.mem_append_left _ (List.mem_cons_of_mem _ hmempages)
      · exact List.mem_cons_of_mem _ hmempages

theorem C10_custom_fields_unguarded_vs_guarded_witness :
    ((sync_tickets noCFEnv "2019-01-01" 1 1 []).2.2 =
        .failed (.keyError "custom_fields") ∧
      ∀ r', Event.writeRecord "tickets" r' ∉
        (sync_tickets noCFEnv "2019-01-01" 1 1 []).1) ∧
    Event.writeRecord "groups" groupsRow ∈
      (sync_time_filtered "groups" groupsFetch "2019-01-01" 2
        [("groups", .str "2020-01-01")]).1 :=
  ⟨C10_custom_fields_unguarded_vs_guarded.1 noCFEnv "2019-01-01" 1 1 [] noCFRow []
      (.num 5) (.str "2019-01-01") [("tickets", .str "2019-01-01")]
      (by decide) rfl rfl rfl rfl,
   C10_custom_fields_unguarded_vs_guarded.2 "groups" groupsFetch "2019-01-01" 2
      [("groups", .str "2020-01-01")] groupsRow [] "2020-01-01" "2020-06-01"
      [("groups", .str "2020-01-01")] (by decide) rfl rfl rfl rfl rfl⟩

end TapFreshdesk
